import Mathlib

/-!
Verification of the mental-fatigue-propagation telemetry pipeline.

The development shallowly embeds the pipeline's numeric core
(`src/segment_lap.py`, `src/cli_model.py`, `src/insights.py`,
`src/processor.py`).  Dataframe columns are modelled as Lean lists (or as
`ℕ`-indexed sequences for the dead-reckoning integrator), float values as
exact rationals `ℚ` (reals `ℝ` where the code uses trigonometry), and numpy
operations that can produce non-finite floats carry an explicit marker:
a float floor division with zero divisor yields NaN or ±inf, which is
modelled as `none` and which pandas `astype(int)` rejects with a
`ValueError`.  Fallible code returns `Except String`.
-/

deriving instance DecidableEq for Except

namespace MFP

/-- Message of the `ValueError` pandas raises when `astype(int)` meets a
NaN or infinite value (as produced by `segment_lap.py` line 16 when the
segment length is zero). -/
def nonFiniteMsg : String := "Cannot convert non-finite values (NA or inf) to integer"

/-- Floor division `x // y` of numpy floats, on exact rationals: a zero
divisor yields a non-finite result (NaN for `0.0 // 0.0`, ±inf otherwise),
marked `none`; otherwise the exact floor `⌊x / y⌋`. -/
def floorDivF (x y : ℚ) : Option ℤ := if y = 0 then none else some ⌊x / y⌋

/-- Embedding of `segment_lap` (`segment_lap.py` lines 4-19) applied to the
`Laptrigger_lapdist_dls` column.  The code sorts rows by distance, takes the
column maximum (`NaN` on an empty table, modelled by `max? = none`), computes
`segment_length = max_dist / num_segments`, floor-divides every distance by
it, converts to int with `astype(int)` — which raises a `ValueError` when the
ids are non-finite, i.e. exactly when the segment length is zero — and
finally clips the ids to the upper bound `num_segments - 1`.  On the empty
table every step is a no-op and the empty table is returned.  The model
returns the `(distance, segment_id)` rows and assumes `num_segments ≥ 1`
(the code's default is 60). -/
def segment_lap (dists : List ℚ) (num_segments : ℕ) : Except String (List (ℚ × ℤ)) :=
  let sorted := dists.insertionSort (fun a b => a ≤ b)
  match sorted.max? with
  | none => Except.ok []
  | some maxDist =>
    let segmentLength := maxDist / num_segments
    if segmentLength = 0 then Except.error nonFiniteMsg
    else Except.ok (sorted.map (fun d => (d, min ⌊d / segmentLength⌋ ((num_segments : ℤ) - 1))))

example : segment_lap ([] : List ℚ) 60 = Except.ok [] := by rfl

example : segment_lap [(0 : ℚ), 0] 60 = Except.error nonFiniteMsg := by
  with_unfolding_all decide

example : segment_lap [(10 : ℚ), 5, 0] 2 = Except.ok [(0, 0), (5, 1), (10, 1)] := by
  with_unfolding_all decide

instance : Std.Antisymm (fun a b : ℚ => a ≤ b) := ⟨fun h h' => le_antisymm h h'⟩

/-- Characterization of `List.max?` on rationals: the maximum is a member that
bounds every element (this mirrors what pandas `.max()` returns on a nonempty
column). -/
theorem max?_eq_some_iff_q {l : List ℚ} {a : ℚ} :
    l.max? = some a ↔ a ∈ l ∧ ∀ b ∈ l, b ≤ a :=
  List.max?_eq_some_iff (fun a => le_refl a) (fun a b => max_choice a b)
    (fun _ _ _ => max_le_iff)

/-- C1 (counterexample): the lap segmenter does not fail on the empty table;
pandas `max` of an empty column is NaN, the empty column floor-divided by NaN
is still empty, `astype(int)` and `clip` on an empty column succeed, and the
empty table is returned.  No `InvalidInput` guard exists in `segment_lap`. -/
theorem C1_counterexample : segment_lap ([] : List ℚ) 60 = Except.ok [] := by rfl

/-- C1 (amended): on a nonempty table whose lap distance column is entirely
zero, `segment_lap` does divide by the zero segment length, producing NaN
segment ids, and then fails with the generic pandas `ValueError` raised by
`astype(int)` on non-finite values — not with an explicit
`InvalidInput`/`InvalidSegmentation` guard; the empty table does not fail at
all. -/
theorem C1_amended_zero_distance (dists : List ℚ) (hne : dists ≠ [])
    (h0 : ∀ d ∈ dists, d = 0) :
    segment_lap dists 60 = Except.error nonFiniteMsg := by
  have hperm := List.perm_insertionSort (fun a b : ℚ => a ≤ b) dists
  obtain ⟨m, hm⟩ : ∃ m, (dists.insertionSort (fun a b : ℚ => a ≤ b)).max? = some m := by
    cases h : (dists.insertionSort (fun a b : ℚ => a ≤ b)).max? with
    | none =>
      have hnil : dists.insertionSort (fun a b : ℚ => a ≤ b) = [] :=
        List.max?_eq_none_iff.mp h
      rw [hnil] at hperm
      exact absurd hperm.symm.eq_nil hne
    | some m => exact ⟨m, rfl⟩
  have hm0 : m = 0 := h0 m (hperm.mem_iff.mp (max?_eq_some_iff_q.mp hm).1)
  rw [hm0] at hm
  simp only [segment_lap]
  rw [hm]
  simp [zero_div]

/-- C1 witness: the all-zero three-row table hits the `astype` failure. -/
theorem C1_amended_zero_distance_witness :
    segment_lap [(0 : ℚ), 0, 0] 60 = Except.error nonFiniteMsg :=
  C1_amended_zero_distance [(0 : ℚ), 0, 0] (by simp) (by simp)

/-- C3 (counterexample): the clip in `segment_lap` is upper-only
(`clip(upper=num_segments - 1)`), so a row with negative distance keeps a
negative segment id instead of being clamped into `[0, N-1]`: with distances
`[-1, 1]` and one segment, the first row gets segment id `-1`, not `0`. -/
theorem C3_counterexample :
    segment_lap [(-1 : ℚ), 1] 1 = Except.ok [((-1 : ℚ), (-1 : ℤ)), (1, 0)] ∧
      ¬(0 : ℤ) ≤ -1 := by
  constructor
  · with_unfolding_all decide
  · decide

/-- C3 (amended): for N ≥ 1 and a table of nonnegative distances with
positive maximum, `segment_lap` assigns every row
`segment_id = min ⌊distance / (max / N)⌋ (N - 1)` — the clamp is upper-only,
and nonnegativity of the distances (not a lower clamp) is what keeps every id
in `[0, N-1]`; every maximum-distance row gets id `N - 1` exactly. -/
theorem C3_amended_segment_ids (dists : List ℚ) (N : ℕ) (maxDist : ℚ)
    (hN : 1 ≤ N) (hmem : maxDist ∈ dists) (hmax : ∀ d ∈ dists, d ≤ maxDist)
    (hpos : 0 < maxDist) (hnonneg : ∀ d ∈ dists, 0 ≤ d) :
    ∃ rows, segment_lap dists N = Except.ok rows ∧
      (∀ p ∈ rows, p.2 = min ⌊p.1 / (maxDist / N)⌋ ((N : ℤ) - 1)) ∧
      (∀ p ∈ rows, 0 ≤ p.2 ∧ p.2 ≤ (N : ℤ) - 1) ∧
      (∀ p ∈ rows, p.1 = maxDist → p.2 = (N : ℤ) - 1) ∧
      (∃ p ∈ rows, p.1 = maxDist) := by
  have hperm := List.perm_insertionSort (fun a b : ℚ => a ≤ b) dists
  have hm : (dists.insertionSort (fun a b : ℚ => a ≤ b)).max? = some maxDist :=
    max?_eq_some_iff_q.mpr
      ⟨hperm.mem_iff.mpr hmem, fun b hb => hmax b (hperm.mem_iff.mp hb)⟩
  have hNQ : (0 : ℚ) < (N : ℚ) := by exact_mod_cast Nat.lt_of_lt_of_le Nat.zero_lt_one hN
  have hseg : 0 < maxDist / (N : ℚ) := div_pos hpos hNQ
  have hN1 : (0 : ℤ) ≤ (N : ℤ) - 1 := by
    have : (1 : ℤ) ≤ (N : ℤ) := by exact_mod_cast hN
    omega
  refine ⟨(dists.insertionSort (fun a b : ℚ => a ≤ b)).map
      (fun d => (d, min ⌊d / (maxDist / (N : ℚ))⌋ ((N : ℤ) - 1))), ?_, ?_, ?_, ?_, ?_⟩
  · simp only [segment_lap]
    rw [hm]
    simp [hseg.ne']
  · intro p hp
    obtain ⟨d, _, rfl⟩ := List.mem_map.mp hp
    rfl
  · intro p hp
    obtain ⟨d, hd, rfl⟩ := List.mem_map.mp hp
    have hd' : d ∈ dists := hperm.mem_iff.mp hd
    have h0d : 0 ≤ d := hnonneg d hd'
    refine ⟨le_min (Int.floor_nonneg.mpr (div_nonneg h0d hseg.le)) hN1, min_le_right _ _⟩
  · intro p hp hp1
    obtain ⟨d, hd, rfl⟩ := List.mem_map.mp hp
    have hd2 : d = maxDist := hp1
    subst hd2
    show min ⌊d / (d / (N : ℚ))⌋ ((N : ℤ) - 1) = (N : ℤ) - 1
    have h0 : d ≠ 0 := ne_of_gt hpos
    have hcancel : d / (d / (N : ℚ)) = (N : ℚ) := by
      field_simp
    rw [hcancel, Int.floor_natCast]
    exact min_eq_right (by omega)
  · refine ⟨(maxDist, min ⌊maxDist / (maxDist / (N : ℚ))⌋ ((N : ℤ) - 1)), ?_, rfl⟩
    exact List.mem_map_of_mem _ (hperm.mem_iff.mpr hmem)

/-- C3 witness: the single-row table `[1]` with one segment. -/
theorem C3_amended_segment_ids_witness :
    ∃ rows, segment_lap [(1 : ℚ)] 1 = Except.ok rows ∧
      (∀ p ∈ rows, p.2 = min ⌊p.1 / ((1 : ℚ) / (1 : ℕ))⌋ (((1 : ℕ) : ℤ) - 1)) ∧
      (∀ p ∈ rows, 0 ≤ p.2 ∧ p.2 ≤ ((1 : ℕ) : ℤ) - 1) ∧
      (∀ p ∈ rows, p.1 = 1 → p.2 = ((1 : ℕ) : ℤ) - 1) ∧
      (∃ p ∈ rows, p.1 = 1) :=
  C3_amended_segment_ids [(1 : ℚ)] 1 1 (le_refl 1) (by simp)
    (by simp) one_pos (by simp)

/-- C9 (confirmed): for any table with a positive maximum distance and N ≥ 1,
the table `segment_lap` returns is sorted ascending by cumulative lap
distance, and the segment-id column is non-decreasing from first row to
last. -/
theorem C9_output_sorted (dists : List ℚ) (N : ℕ) (maxDist : ℚ)
    (hN : 1 ≤ N) (hmem : maxDist ∈ dists) (hmax : ∀ d ∈ dists, d ≤ maxDist)
    (hpos : 0 < maxDist) :
    ∃ rows, segment_lap dists N = Except.ok rows ∧
      (rows.map Prod.fst).Sorted (fun a b : ℚ => a ≤ b) ∧
      (rows.map Prod.snd).Sorted (fun a b : ℤ => a ≤ b) := by
  have hperm := List.perm_insertionSort (fun a b : ℚ => a ≤ b) dists
  have hm : (dists.insertionSort (fun a b : ℚ => a ≤ b)).max? = some maxDist :=
    max?_eq_some_iff_q.mpr
      ⟨hperm.mem_iff.mpr hmem, fun b hb => hmax b (hperm.mem_iff.mp hb)⟩
  have hNQ : (0 : ℚ) < (N : ℚ) := by exact_mod_cast Nat.lt_of_lt_of_le Nat.zero_lt_one hN
  have hseg : 0 < maxDist / (N : ℚ) := div_pos hpos hNQ
  have hsorted : (dists.insertionSort (fun a b : ℚ => a ≤ b)).Sorted (fun a b : ℚ => a ≤ b) :=
    List.sorted_insertionSort _ dists
  refine ⟨(dists.insertionSort (fun a b : ℚ => a ≤ b)).map
      (fun d => (d, min ⌊d / (maxDist / (N : ℚ))⌋ ((N : ℤ) - 1))), ?_, ?_, ?_⟩
  · simp only [segment_lap]
    rw [hm]
    simp [hseg.ne']
  · have hfst : ((dists.insertionSort (fun a b : ℚ => a ≤ b)).map
        (fun d => (d, min ⌊d / (maxDist / (N : ℚ))⌋ ((N : ℤ) - 1)))).map Prod.fst =
        dists.insertionSort (fun a b : ℚ => a ≤ b) := by
      rw [List.map_map]
      exact (List.map_congr_left (fun a _ => rfl)).trans (List.map_id _)
    rw [hfst]
    exact hsorted
  · rw [List.map_map]
    refine List.Pairwise.map _ ?_ hsorted
    intro a b hab
    simp only [Function.comp]
    exact min_le_min
      (Int.floor_le_floor ((div_le_div_iff_of_pos_right hseg).mpr hab)) (le_refl _)

/-- C9 witness: the single-row table `[1]` with one segment. -/
theorem C9_output_sorted_witness :
    ∃ rows, segment_lap [(1 : ℚ)] 1 = Except.ok rows ∧
      (rows.map Prod.fst).Sorted (fun a b : ℚ => a ≤ b) ∧
      (rows.map Prod.snd).Sorted (fun a b : ℤ => a ≤ b) :=
  C9_output_sorted [(1 : ℚ)] 1 1 (le_refl 1) (by simp) (by simp) one_pos

/-- Synthetic lap of the C8 scenario: 120 samples whose cumulative distance
increases linearly from 0 (first sample) to 1200 units (last sample). -/
def c8dists : List ℚ := (List.range 120).map (fun (i : ℕ) => 1200 * (i : ℚ) / 119)

/-- Closed form of the rows `segment_lap` produces on the C8 lap: segment
length is `1200 / 60 = 20`, so sample `i` gets id `min (60 * i / 119) 59`. -/
def c8rows : List (ℚ × ℤ) :=
  (List.range 120).map
    (fun (i : ℕ) => (1200 * (i : ℚ) / 119, ((min (60 * i / 119) 59 : ℕ) : ℤ)))

theorem c8dists_sorted : c8dists.Sorted (fun a b : ℚ => a ≤ b) := by
  rw [c8dists]
  refine List.pairwise_map.mpr ((List.pairwise_lt_range 120).imp ?_)
  intro i j hij
  have hc : (i : ℚ) ≤ (j : ℚ) := by exact_mod_cast hij.le
  gcongr

theorem c8dists_max? : c8dists.max? = some 1200 := by
  refine max?_eq_some_iff_q.mpr ⟨?_, ?_⟩
  · rw [c8dists]
    refine List.mem_map.mpr ⟨119, ?_, by norm_num⟩
    exact List.mem_range.mpr (by norm_num)
  · intro b hb
    obtain ⟨i, hi, rfl⟩ := List.mem_map.mp hb
    have hi' : (i : ℚ) ≤ 119 := by
      exact_mod_cast Nat.le_of_lt_succ (List.mem_range.mp hi)
    calc 1200 * (i : ℚ) / 119 ≤ 1200 * 119 / 119 := by gcongr
      _ = 1200 := by norm_num

theorem segment_lap_c8 : segment_lap c8dists 60 = Except.ok c8rows := by
  simp only [segment_lap, c8dists_sorted.insertionSort_eq, c8dists_max?]
  have h20 : (1200 : ℚ) / ((60 : ℕ) : ℚ) = 20 := by norm_num
  rw [h20, if_neg (by norm_num)]
  simp only [c8dists, c8rows, List.map_map]
  refine congrArg Except.ok (List.map_congr_left ?_)
  intro i _
  simp only [Function.comp_apply]
  refine Prod.ext rfl ?_
  have harith : 1200 * (i : ℚ) / 119 / 20 = ((60 * i : ℕ) : ℚ) / ((119 : ℕ) : ℚ) := by
    push_cast
    ring
  show min ⌊1200 * (i : ℚ) / 119 / 20⌋ ((60 : ℤ) - 1) = ((min (60 * i / 119) 59 : ℕ) : ℤ)
  rw [harith, Rat.floor_natCast_div_natCast, Nat.cast_min]
  norm_num

/-- C8 (counterexample): on the synthetic 120-sample lap with distance linear
from 0 to 1200 and N = 60, segment 0 receives exactly 2 samples, not the 20
the claim states (120 samples over 60 segments can only average 2 each). -/
theorem C8_counterexample :
    (segment_lap c8dists 60).map (fun rows => rows.countP (fun p => p.2 = (0 : ℤ))) =
      Except.ok 2 ∧ (2 : ℕ) ≠ 20 := by
  constructor
  · rw [segment_lap_c8]
    show Except.ok (c8rows.countP (fun p => p.2 = (0 : ℤ))) = Except.ok 2
    refine congrArg Except.ok ?_
    simp only [c8rows, List.countP_map]
    decide
  · decide

/-- C8 (amended): on the synthetic 120-sample lap with distance linear from 0
to 1200 and N = 60, every segment id in `[0, 59]` receives exactly 2 samples
(not 20), and the final, maximum-distance sample lands in segment 59. -/
theorem C8_amended_two_per_segment :
    segment_lap c8dists 60 = Except.ok c8rows ∧
    (List.range 60).map (fun (k : ℕ) => c8rows.countP (fun p => p.2 = (k : ℤ))) =
      List.replicate 60 2 ∧
    (c8rows.map Prod.snd).getLast? = some 59 ∧
    c8rows.length = 120 := by
  refine ⟨segment_lap_c8, ?_, ?_, ?_⟩
  · simp only [c8rows, List.countP_map]
    decide
  · simp only [c8rows, List.map_map, List.getLast?_map]
    decide
  · simp [c8rows]

/-- Embedding of `normalize_series` (`cli_model.py` lines 4-12): min-max
normalization of a metric column.  When `max - min == 0` the code returns
`series * 0` (all zeros); pandas `min`/`max` of an empty column are NaN,
`NaN - NaN = NaN ≠ 0`, and the empty column passes through either branch
unchanged, so the empty column is returned as is. -/
def normalize_series (series : List ℚ) : List ℚ :=
  match series.min?, series.max? with
  | some minVal, some maxVal =>
    if maxVal - minVal = 0 then series.map (fun x => x * 0)
    else series.map (fun x => (x - minVal) / (maxVal - minVal))
  | _, _ => series

example : normalize_series [(5 : ℚ), 5, 5] = [0, 0, 0] := by
  with_unfolding_all decide

example : normalize_series [(1 : ℚ), 3, 2] = [0, 1, 1 / 2] := by
  with_unfolding_all decide

/-- C4 (confirmed): a metric column that is constant across all segments (its
max equals its min) is normalized to exactly 0 for every segment, with no
division by zero: the code takes the `series * 0` branch. -/
theorem C4_constant_normalizes_to_zero (series : List ℚ) (m : ℚ)
    (hmin : series.min? = some m) (hmax : series.max? = some m) :
    normalize_series series = List.replicate series.length 0 := by
  rw [normalize_series, hmin, hmax]
  simp [mul_zero]

/-- C4 witness: the constant column `[5, 5]`. -/
theorem C4_constant_normalizes_to_zero_witness :
    normalize_series [(5 : ℚ), 5] = List.replicate 2 0 :=
  C4_constant_normalizes_to_zero [(5 : ℚ), 5] 5 (by with_unfolding_all decide)
    (by with_unfolding_all decide)

/-- Per-segment metrics table of `compute_cli` (`compute_metrics.py` lines
48-56 fix the column set), modelled column-wise as pandas stores it: one
entry per segment row. -/
structure MetricsDF where
  segment_id : List ℤ
  steering_entropy : List ℚ
  throttle_jerk : List ℚ
  brake_panic : List ℚ
  lat_instability : List ℚ
  long_jerk : List ℚ
  avg_dist : List ℚ

/-- Output table of `compute_cli`: the input columns plus the normalized
metric columns, the fused `CLI` column and the smoothed `CLI_smooth`
column. -/
structure CliDF extends MetricsDF where
  norm_steering : List ℚ
  norm_throttle : List ℚ
  norm_brake : List ℚ
  norm_lat : List ℚ
  CLI : List ℚ
  CLI_smooth : List ℚ

/-- Centered rolling mean of window 3 with `min_periods=1`
(`cli_model.py` line 42): entry `i` averages the entries at indices
`[i-1, i+1]` clipped to the column bounds, so boundary windows shrink to
two entries (or one, on a single-row column). -/
def rollingMean3 (xs : List ℚ) : List ℚ :=
  (List.range xs.length).map (fun (i : ℕ) =>
    let lo := i - 1
    let hi := min (i + 1) (xs.length - 1)
    let window := (xs.drop lo).take (hi - lo + 1)
    window.sum / (window.length : ℚ))

example : rollingMean3 [(1 : ℚ), 2, 6] = [3 / 2, 3, 4] := by
  with_unfolding_all decide

/-- Embedding of `compute_cli` (`cli_model.py` lines 14-45): copies the
metrics table, adds the four min-max-normalized columns, the weighted-sum
`CLI` column with weights 0.4 / 0.3 / 0.2 / 0.1, and the rolling-mean
`CLI_smooth` column. -/
def compute_cli (metrics_df : MetricsDF) : CliDF :=
  let ns := normalize_series metrics_df.steering_entropy
  let nt := normalize_series metrics_df.throttle_jerk
  let nb := normalize_series metrics_df.brake_panic
  let nl := normalize_series metrics_df.lat_instability
  let cli := List.zipWith (fun a b => a + b)
    (List.zipWith (fun a b => a + b)
      (ns.map (fun x => (0.4 : ℚ) * x)) (nt.map (fun x => (0.3 : ℚ) * x)))
    (List.zipWith (fun a b => a + b)
      (nb.map (fun x => (0.2 : ℚ) * x)) (nl.map (fun x => (0.1 : ℚ) * x)))
  { toMetricsDF := metrics_df
    norm_steering := ns
    norm_throttle := nt
    norm_brake := nb
    norm_lat := nl
    CLI := cli
    CLI_smooth := rollingMean3 cli }

/-- C10 (confirmed): `compute_cli` works on a copy and only adds columns —
the returned table carries every original column (`segment_id`,
`steering_entropy`, `throttle_jerk`, `brake_panic`, `lat_instability`,
`long_jerk`, `avg_dist`) with values equal to the input, and the input table
itself is a pure value that cannot be mutated; only the `norm_*`, `CLI` and
`CLI_smooth` columns are new. -/
theorem C10_input_columns_preserved (metrics_df : MetricsDF) :
    (compute_cli metrics_df).toMetricsDF = metrics_df ∧
    (compute_cli metrics_df).segment_id = metrics_df.segment_id ∧
    (compute_cli metrics_df).steering_entropy = metrics_df.steering_entropy ∧
    (compute_cli metrics_df).throttle_jerk = metrics_df.throttle_jerk ∧
    (compute_cli metrics_df).brake_panic = metrics_df.brake_panic ∧
    (compute_cli metrics_df).lat_instability = metrics_df.lat_instability ∧
    (compute_cli metrics_df).long_jerk = metrics_df.long_jerk ∧
    (compute_cli metrics_df).avg_dist = metrics_df.avg_dist :=
  ⟨rfl, rfl, rfl, rfl, rfl, rfl, rfl, rfl⟩

/-- Fixed metric ordering of `compute_insights` (`insights.py` line 24). -/
def insightsMetrics : List String :=
  ["steering_entropy", "throttle_jerk", "brake_panic", "lat_instability", "long_jerk"]

/-- Weight dictionary of `compute_insights` (`insights.py` lines 38-44):
note that `long_jerk` has an explicit entry with weight `0.0`. -/
def insightsWeights : List (String × ℚ) :=
  [("steering_entropy", 0.4), ("throttle_jerk", 0.3), ("brake_panic", 0.2),
    ("lat_instability", 0.1), ("long_jerk", 0.0)]

/-- Weight lookup `weights.get(m, 0.1)` (`insights.py` line 50): the default
`0.1` applies only to a metric missing from the dictionary — and every metric
of `insightsMetrics` is present, `long_jerk` included. -/
def weightOf (m : String) : ℚ := ((insightsWeights.lookup m).getD 0.1)

/-- Loop body of `get_primary_cause` (`insights.py` lines 46-56): keep the
metric with the largest `normalized_value × weight` seen so far, updating
only on a strict increase. -/
def pcStep (norm : String → ℚ) (acc : ℚ × String) (m : String) : ℚ × String :=
  let weightedVal := weightOf m * norm m
  if acc.1 < weightedVal then (weightedVal, m) else acc

/-- Embedding of `get_primary_cause` (`insights.py` lines 46-56) applied to a
row of normalized metric values: fold over the fixed metric ordering starting
from `max_val = -1`, `cause = "Unknown"`. -/
def get_primary_cause (norm : String → ℚ) : String :=
  (insightsMetrics.foldl (pcStep norm) ((-1 : ℚ), "Unknown")).2

example : get_primary_cause (fun m => if m = "brake_panic" then 1 else 0) =
    "brake_panic" := by with_unfolding_all decide

example : get_primary_cause (fun _ => 1) = "steering_entropy" := by
  with_unfolding_all decide

/-- Modelled from the spec: the cause-attribution weighting the specification
describes, in which `long_jerk` always receives a minimum weight of `0.1`
(every other metric keeps its CLI weight). -/
def claimedWeightOf (m : String) : ℚ := max (weightOf m) 0.1

/-- Structure of the primary-cause fold: either no metric beat the initial
accumulator, or the result is the first metric attaining the maximal weighted
value — all earlier metrics are strictly below it, all later ones at most
equal. -/
theorem pcFold_cases (norm : String → ℚ) (l : List String) :
    ∀ (acc r : ℚ × String), l.foldl (pcStep norm) acc = r →
      (r = acc ∧ ∀ m ∈ l, weightOf m * norm m ≤ acc.1) ∨
      (∃ l₁ l₂, l = l₁ ++ r.2 :: l₂ ∧ r.1 = weightOf r.2 * norm r.2 ∧
        acc.1 < r.1 ∧ (∀ m ∈ l₁, weightOf m * norm m < r.1) ∧
        (∀ m ∈ l₂, weightOf m * norm m ≤ r.1)) := by
  induction l with
  | nil =>
    intro acc r hr
    exact Or.inl ⟨hr.symm, by simp⟩
  | cons m l ih =>
    intro acc r hr
    rw [List.foldl_cons] at hr
    by_cases h : acc.1 < weightOf m * norm m
    · have hstep : pcStep norm acc m = (weightOf m * norm m, m) := by
        simp [pcStep, h]
      rw [hstep] at hr
      rcases ih _ _ hr with ⟨heq, hall⟩ | ⟨l₁, l₂, hsplit, hr1, hlt, h₁, h₂⟩
      · subst heq
        refine Or.inr ⟨[], l, by simp, rfl, h, by simp, ?_⟩
        simpa using hall
      · refine Or.inr ⟨m :: l₁, l₂, by simp [hsplit], hr1, lt_trans h hlt, ?_, h₂⟩
        intro x hx
        rcases List.mem_cons.mp hx with rfl | hx
        · exact hlt
        · exact h₁ x hx
    · have hstep : pcStep norm acc m = acc := by
        simp [pcStep, h]
      rw [hstep] at hr
      rcases ih _ _ hr with ⟨heq, hall⟩ | ⟨l₁, l₂, hsplit, hr1, hlt, h₁, h₂⟩
      · refine Or.inl ⟨heq, ?_⟩
        intro x hx
        rcases List.mem_cons.mp hx with rfl | hx
        · exact not_lt.mp h
        · exact hall x hx
      · refine Or.inr ⟨m :: l₁, l₂, by simp [hsplit], hr1, hlt, ?_, h₂⟩
        intro x hx
        rcases List.mem_cons.mp hx with rfl | hx
        · exact lt_of_le_of_lt (not_lt.mp h) hlt
        · exact h₁ x hx

/-- C2 (counterexample): the claim's weighting would make `long_jerk` the
unique argmax on a row whose `long_jerk` norm is 1 and whose other norms are
0 (its claimed weighted value `0.1 × 1` strictly beats every other), yet the
code returns `steering_entropy`: in the code `weights.get(m, 0.1)` finds the
explicit `long_jerk: 0.0` entry, so `long_jerk`'s weighted value is 0, which
never strictly beats the accumulator. -/
theorem C2_counterexample :
    get_primary_cause (fun m => if m = "long_jerk" then 1 else 0) = "steering_entropy" ∧
    ("steering_entropy" : String) ≠ "long_jerk" ∧
    claimedWeightOf "steering_entropy" *
        (if ("steering_entropy" : String) = "long_jerk" then (1 : ℚ) else 0) <
      claimedWeightOf "long_jerk" * (if ("long_jerk" : String) = "long_jerk" then (1 : ℚ) else 0) ∧
    claimedWeightOf "throttle_jerk" *
        (if ("throttle_jerk" : String) = "long_jerk" then (1 : ℚ) else 0) <
      claimedWeightOf "long_jerk" * (if ("long_jerk" : String) = "long_jerk" then (1 : ℚ) else 0) ∧
    claimedWeightOf "brake_panic" *
        (if ("brake_panic" : String) = "long_jerk" then (1 : ℚ) else 0) <
      claimedWeightOf "long_jerk" * (if ("long_jerk" : String) = "long_jerk" then (1 : ℚ) else 0) ∧
    claimedWeightOf "lat_instability" *
        (if ("lat_instability" : String) = "long_jerk" then (1 : ℚ) else 0) <
      claimedWeightOf "long_jerk" * (if ("long_jerk" : String) = "long_jerk" then (1 : ℚ) else 0) := by
  with_unfolding_all decide

/-- C2 (amended): the primary cause is the metric whose
`normalized_value × weight` is largest with the code's weights — 0.4, 0.3,
0.2, 0.1, and `0.0` for `long_jerk` (the `0.1` fallback of `weights.get` is
dead because `long_jerk` has an explicit entry) — ties resolved by
first-encountered order in the fixed metric ordering: the returned metric
weakly dominates all five and strictly dominates every metric listed before
it. -/
theorem C2_amended_primary_cause (norm : String → ℚ)
    (h : ∀ m ∈ insightsMetrics, 0 ≤ norm m) :
    get_primary_cause norm ∈ insightsMetrics ∧
    (∀ m ∈ insightsMetrics, weightOf m * norm m ≤
      weightOf (get_primary_cause norm) * norm (get_primary_cause norm)) ∧
    (∃ l₁ l₂, insightsMetrics = l₁ ++ get_primary_cause norm :: l₂ ∧
      ∀ m ∈ l₁, weightOf m * norm m <
        weightOf (get_primary_cause norm) * norm (get_primary_cause norm)) := by
  obtain ⟨v, c, hfold⟩ : ∃ v c,
      insightsMetrics.foldl (pcStep norm) ((-1 : ℚ), "Unknown") = (v, c) := ⟨_, _, rfl⟩
  have hgp : get_primary_cause norm = c := by rw [get_primary_cause, hfold]
  rcases pcFold_cases norm insightsMetrics ((-1 : ℚ), "Unknown") (v, c) hfold with
    ⟨_, hall⟩ | ⟨l₁, l₂, hsplit, hr1, _, h₁, h₂⟩
  · exfalso
    have hse : ("steering_entropy" : String) ∈ insightsMetrics := by decide
    have hb := hall _ hse
    have hw : weightOf "steering_entropy" = 0.4 := by with_unfolding_all decide
    have hn := h _ hse
    rw [hw] at hb
    nlinarith
  · have hvc : v = weightOf c * norm c := hr1
    rw [hgp]
    refine ⟨?_, ?_, l₁, l₂, hsplit, ?_⟩
    · rw [hsplit]
      exact List.mem_append_right _ (List.mem_cons_self _ _)
    · intro m hm
      rw [← hvc]
      rcases List.mem_append.mp (hsplit ▸ hm) with hm' | hm'
      · exact (h₁ m hm').le
      · rcases List.mem_cons.mp hm' with rfl | hm'
        · exact le_of_eq hvc.symm
        · exact h₂ m hm'
    · intro m hm
      rw [← hvc]
      exact h₁ m hm

/-- C2 witness: the all-zero row (first strict increase wins, so the cause is
`steering_entropy`, the first metric in the ordering). -/
theorem C2_amended_primary_cause_witness :
    get_primary_cause (fun _ => (0 : ℚ)) ∈ insightsMetrics ∧
    (∀ m ∈ insightsMetrics, weightOf m * (0 : ℚ) ≤
      weightOf (get_primary_cause (fun _ => (0 : ℚ))) * (0 : ℚ)) ∧
    (∃ l₁ l₂, insightsMetrics = l₁ ++ get_primary_cause (fun _ => (0 : ℚ)) :: l₂ ∧
      ∀ m ∈ l₁, weightOf m * (0 : ℚ) <
        weightOf (get_primary_cause (fun _ => (0 : ℚ))) * (0 : ℚ)) :=
  C2_amended_primary_cause (fun _ => (0 : ℚ)) (fun _ _ => le_refl 0)

/-- Steering normalization of `process_lap_data` (`processor.py` line 88):
the steering column is always divided by the fixed 450-unit maximum
deflection. -/
def normalizeSteering (steering : List ℚ) : List ℚ := steering.map (fun x => x / 450)

/-- Throttle normalization of `process_lap_data` (`processor.py` lines
90-92): divided by 100 only when the observed maximum exceeds 1 (pandas
`max()` of an empty column is NaN and `NaN > 1` is false, modelled by
`max? = none`). -/
def normalizeThrottle (throttle : List ℚ) : List ℚ :=
  match throttle.max? with
  | some m => if 1 < m then throttle.map (fun x => x / 100) else throttle
  | none => throttle

/-- Brake normalization of `process_lap_data` (`processor.py` lines 94-96):
divided by the observed maximum when that maximum is positive. -/
def normalizeBrake (brake : List ℚ) : List ℚ :=
  match brake.max? with
  | some m => if 0 < m then brake.map (fun x => x / m) else brake
  | none => brake

/-- Speed unit heuristic of `process_lap_data` (`processor.py` lines
115-120): treated as km/h and divided by 3.6 only when the observed maximum
exceeds 100, otherwise taken as m/s unchanged. -/
def speedToMs (speed : List ℚ) : List ℚ :=
  match speed.max? with
  | some m => if 100 < m then speed.map (fun x => x / (3.6 : ℚ)) else speed
  | none => speed

example : normalizeThrottle [(50 : ℚ), 100] = [1 / 2, 1] := by
  with_unfolding_all decide

example : normalizeThrottle [(1 : ℚ), 1 / 2] = [1, 1 / 2] := by
  with_unfolding_all decide

example : speedToMs [(90 : ℚ), 100] = [90, 100] := by
  with_unfolding_all decide

/-- C6 (confirmed): the loader's unit-normalization policy — steering always
divided by 450; throttle divided by 100 iff its observed maximum exceeds 1;
brake divided by its observed maximum iff that maximum is positive; speed
divided by 3.6 iff its observed maximum exceeds 100 — with each column left
unchanged when its condition fails. -/
theorem C6_unit_normalization (steering throttle brake speed : List ℚ)
    (mt mb ms : ℚ) (ht : throttle.max? = some mt) (hb : brake.max? = some mb)
    (hs : speed.max? = some ms) :
    normalizeSteering steering = steering.map (fun x => x / 450) ∧
    (1 < mt → normalizeThrottle throttle = throttle.map (fun x => x / 100)) ∧
    (mt ≤ 1 → normalizeThrottle throttle = throttle) ∧
    (0 < mb → normalizeBrake brake = brake.map (fun x => x / mb)) ∧
    (mb ≤ 0 → normalizeBrake brake = brake) ∧
    (100 < ms → speedToMs speed = speed.map (fun x => x / (3.6 : ℚ))) ∧
    (ms ≤ 100 → speedToMs speed = speed) := by
  refine ⟨rfl, ?_, ?_, ?_, ?_, ?_, ?_⟩
  · intro h
    simp only [normalizeThrottle, ht]
    rw [if_pos h]
  · intro h
    simp only [normalizeThrottle, ht]
    rw [if_neg (not_lt.mpr h)]
  · intro h
    simp only [normalizeBrake, hb]
    rw [if_pos h]
  · intro h
    simp only [normalizeBrake, hb]
    rw [if_neg (not_lt.mpr h)]
  · intro h
    simp only [speedToMs, hs]
    rw [if_pos h]
  · intro h
    simp only [speedToMs, hs]
    rw [if_neg (not_lt.mpr h)]

/-- C6 witness: a percent throttle column, a positive brake column and a
km/h speed column. -/
theorem C6_unit_normalization_witness :
    normalizeSteering [(45 : ℚ)] = [(45 : ℚ)].map (fun x => x / 450) ∧
    (1 < (80 : ℚ) → normalizeThrottle [(80 : ℚ)] = [(80 : ℚ)].map (fun x => x / 100)) ∧
    ((80 : ℚ) ≤ 1 → normalizeThrottle [(80 : ℚ)] = [(80 : ℚ)]) ∧
    (0 < (2 : ℚ) → normalizeBrake [(2 : ℚ)] = [(2 : ℚ)].map (fun x => x / 2)) ∧
    ((2 : ℚ) ≤ 0 → normalizeBrake [(2 : ℚ)] = [(2 : ℚ)]) ∧
    (100 < (180 : ℚ) → speedToMs [(180 : ℚ)] = [(180 : ℚ)].map (fun x => x / (3.6 : ℚ))) ∧
    ((180 : ℚ) ≤ 100 → speedToMs [(180 : ℚ)] = [(180 : ℚ)]) :=
  C6_unit_normalization [(45 : ℚ)] [(80 : ℚ)] [(2 : ℚ)] [(180 : ℚ)] 80 2 180
    (by with_unfolding_all decide) (by with_unfolding_all decide)
    (by with_unfolding_all decide)

/-- Raw long-format telemetry record, reduced to the fields the vehicle/lap
filter of `process_lap_data` (`processor.py` lines 36-45) inspects. -/
structure RawRow where
  vehicle_id : String
  lap : ℤ
deriving DecidableEq

/-- Error message of `process_lap_data` when no row matches
(`processor.py` line 45). -/
def noDataMsg (vehicle_id : String) (lap : ℤ) : String :=
  "No data found for " ++ vehicle_id ++ " Lap " ++ toString lap

/-- Filter of one chunk to the requested vehicle and lap
(`processor.py` lines 36-40). -/
def filterChunk (vehicle_id : String) (lap : ℤ) (chunk : List RawRow) : List RawRow :=
  chunk.filter (fun r => r.vehicle_id = vehicle_id ∧ r.lap = lap)

/-- Kept chunks of the load-and-filter stage of `process_lap_data`
(`processor.py` lines 36-42): each chunk is filtered to the requested
vehicle and lap, and only nonempty filtered chunks are appended. -/
def keptChunks (chunks : List (List RawRow)) (vehicle_id : String) (lap : ℤ) :
    List (List RawRow) :=
  (chunks.map (filterChunk vehicle_id lap)).filter (fun c => ¬c.isEmpty)

/-- Embedding of the load-and-filter stage of `process_lap_data`
(`processor.py` lines 17-47): a `ValueError` naming the vehicle and lap is
raised when no filtered chunk survives, and otherwise the kept chunks are
concatenated (`pd.concat`). -/
def process_lap_filter (chunks : List (List RawRow)) (vehicle_id : String) (lap : ℤ) :
    Except String (List RawRow) :=
  if (keptChunks chunks vehicle_id lap).isEmpty then
    Except.error (noDataMsg vehicle_id lap)
  else Except.ok (keptChunks chunks vehicle_id lap).flatten

example : process_lap_filter [[⟨"GR86-007", 3⟩], [⟨"GR86-008", 3⟩]] "GR86-008" 3 =
    Except.ok [⟨"GR86-008", 3⟩] := by decide

/-- C7 (confirmed): when the vehicle/lap filter matches zero rows, loading
fails with the `ValueError` whose message names the requested vehicle id and
lap number; a successful load never returns an empty row set. -/
theorem C7_no_matching_data (chunks : List (List RawRow)) (vehicle_id : String) (lap : ℤ) :
    ((∀ r ∈ chunks.flatten, ¬(r.vehicle_id = vehicle_id ∧ r.lap = lap)) →
      process_lap_filter chunks vehicle_id lap = Except.error (noDataMsg vehicle_id lap)) ∧
    (∀ rows, process_lap_filter chunks vehicle_id lap = Except.ok rows → rows ≠ []) ∧
    (∃ s₁ s₂, noDataMsg vehicle_id lap = s₁ ++ vehicle_id ++ s₂) ∧
    (∃ s₁ s₂, noDataMsg vehicle_id lap = s₁ ++ toString lap ++ s₂) := by
  refine ⟨?_, ?_, ?_, ?_⟩
  · intro hnone
    have hkept : keptChunks chunks vehicle_id lap = [] := by
      rw [keptChunks, List.filter_eq_nil_iff]
      intro c hc
      obtain ⟨chunk, hchunk, rfl⟩ := List.mem_map.mp hc
      have hfc : filterChunk vehicle_id lap chunk = [] := by
        rw [filterChunk, List.filter_eq_nil_iff]
        intro r hr
        simpa using hnone r (List.mem_flatten.mpr ⟨chunk, hchunk, hr⟩)
      simp [hfc]
    rw [process_lap_filter, if_pos (by rw [hkept]; rfl)]
  · intro rows hrows
    rw [process_lap_filter] at hrows
    by_cases hk : (keptChunks chunks vehicle_id lap).isEmpty
    · rw [if_pos hk] at hrows
      exact absurd hrows (by simp)
    · rw [if_neg hk] at hrows
      have hrow : (keptChunks chunks vehicle_id lap).flatten = rows := by
        injection hrows
      subst hrow
      intro hjoin
      obtain ⟨c, hc⟩ : ∃ c, c ∈ keptChunks chunks vehicle_id lap := by
        cases hke : keptChunks chunks vehicle_id lap with
        | nil => rw [hke] at hk; simp at hk
        | cons c t => exact ⟨c, hke ▸ List.mem_cons_self c t⟩
      have hcne : ¬c.isEmpty := by
        rw [keptChunks] at hc
        simpa using (List.mem_filter.mp hc).2
      have hc0 : c = [] := List.flatten_eq_nil_iff.mp hjoin c hc
      rw [hc0] at hcne
      simp at hcne
  · exact ⟨"No data found for ", " Lap " ++ toString lap, by
      rw [noDataMsg, String.append_assoc]⟩
  · exact ⟨"No data found for " ++ vehicle_id ++ " Lap ", "", by
      rw [noDataMsg, String.append_empty]⟩

/-- C7 witness: a source whose only row belongs to another vehicle and lap. -/
theorem C7_no_matching_data_witness :
    process_lap_filter [[⟨"GR86-007", 3⟩]] "GR86-008" 4 =
      Except.error (noDataMsg "GR86-008" 4) :=
  (C7_no_matching_data [[⟨"GR86-007", 3⟩]] "GR86-008" 4).1 (by decide)

noncomputable section

/-- Sample-time deltas of `process_lap_data` (`processor.py` line 105):
`timestamp.diff()` with the first sample's NaN filled to 0, in seconds. -/
def dtOf (ts : ℕ → ℝ) : ℕ → ℝ
  | 0 => 0
  | i + 1 => ts (i + 1) - ts i

/-- Wheel angle in radians (`processor.py` lines 107-112): the normalized
steering is scaled back to degrees (× 450), divided by the steering-ratio
constant 13.5, and converted to radians. -/
def wheelAngle (steering : ℕ → ℝ) (i : ℕ) : ℝ :=
  steering i * 450 / 13.5 * Real.pi / 180

/-- Yaw rate (`processor.py` lines 122-124): `(v / L) * tan(delta)` with the
wheelbase constant `L = 2.57`, speed already in m/s. -/
def yawRate (steering speed : ℕ → ℝ) (i : ℕ) : ℝ :=
  speed i / 2.57 * Real.tan (wheelAngle steering i)

/-- Heading (`processor.py` line 127): running cumulative sum of
`yaw_rate × dt` up to and including the current sample. -/
def headingAt (ts steering speed : ℕ → ℝ) (i : ℕ) : ℝ :=
  ∑ j ∈ Finset.range (i + 1), yawRate steering speed j * dtOf ts j

/-- X position (`processor.py` lines 130-134): running cumulative sum of
`speed × cos(heading) × dt`. -/
def posXAt (ts steering speed : ℕ → ℝ) (i : ℕ) : ℝ :=
  ∑ j ∈ Finset.range (i + 1),
    speed j * Real.cos (headingAt ts steering speed j) * dtOf ts j

/-- Y position (`processor.py` lines 131-135): running cumulative sum of
`speed × sin(heading) × dt`. -/
def posYAt (ts steering speed : ℕ → ℝ) (i : ℕ) : ℝ :=
  ∑ j ∈ Finset.range (i + 1),
    speed j * Real.sin (headingAt ts steering speed j) * dtOf ts j

/-- Cumulative lap distance (`processor.py` line 143): running cumulative
sum of `speed × dt`. -/
def lapDistAt (ts speed : ℕ → ℝ) (i : ℕ) : ℝ :=
  ∑ j ∈ Finset.range (i + 1), speed j * dtOf ts j

end

/-- C5 (confirmed): the track reconstructor computes
`yaw_rate = (speed / 2.57) × tan(radians(steering × 450 / 13.5))`, heading as
the running cumulative sum of `yaw_rate × dt`, position as the running
cumulative sums of `speed × cos(heading) × dt` and `speed × sin(heading) × dt`,
and lap distance as the running cumulative sum of `speed × dt`; the first
sample's `dt` is 0, so every cumulative quantity starts at zero. -/
theorem C5_dead_reckoning (ts steering speed : ℕ → ℝ) :
    dtOf ts 0 = 0 ∧
    (∀ i, wheelAngle steering i = steering i * 450 / 13.5 * Real.pi / 180) ∧
    (∀ i, yawRate steering speed i = speed i / 2.57 * Real.tan (wheelAngle steering i)) ∧
    headingAt ts steering speed 0 = 0 ∧
    posXAt ts steering speed 0 = 0 ∧
    posYAt ts steering speed 0 = 0 ∧
    lapDistAt ts speed 0 = 0 ∧
    (∀ i, headingAt ts steering speed (i + 1) =
      headingAt ts steering speed i + yawRate steering speed (i + 1) * dtOf ts (i + 1)) ∧
    (∀ i, posXAt ts steering speed (i + 1) = posXAt ts steering speed i +
      speed (i + 1) * Real.cos (headingAt ts steering speed (i + 1)) * dtOf ts (i + 1)) ∧
    (∀ i, posYAt ts steering speed (i + 1) = posYAt ts steering speed i +
      speed (i + 1) * Real.sin (headingAt ts steering speed (i + 1)) * dtOf ts (i + 1)) ∧
    (∀ i, lapDistAt ts speed (i + 1) = lapDistAt ts speed i +
      speed (i + 1) * dtOf ts (i + 1)) := by
  refine ⟨rfl, fun i => rfl, fun i => rfl, ?_, ?_, ?_, ?_, fun i => ?_, fun i => ?_,
    fun i => ?_, fun i => ?_⟩
  · simp [headingAt, dtOf]
  · simp [posXAt, dtOf]
  · simp [posYAt, dtOf]
  · simp [lapDistAt, dtOf]
  · simp [headingAt, Finset.sum_range_succ]
  · simp [posXAt, Finset.sum_range_succ]
  · simp [posYAt, Finset.sum_range_succ]
  · simp [lapDistAt, Finset.sum_range_succ]

end MFP
